import Mathlib

/-!
Verification of the SIR repository (FloPoCo FixIIR metrics extraction and a
truth-table generator) against its specification.

The embedding follows `src/flopoco_fixiir_metrics.py` and
`src/table de verité/table_verite.py`.

Modelling conventions:
* Byte streams captured from the subprocess are `List Nat` (Python `bytes`);
  an absent stream is `Option.none` (Python `None`).
* Python `float` values are modelled as exact rationals (`Rat`); the numeric
  strings matched by the fixed regexes denote exact decimal/exponent values,
  parsed here with exact rational semantics.
* The three regular expressions `_RE_H`, `_RE_HEPS`, `_RE_LSBEXT` are fixed in
  the source, so they are embedded as dedicated matchers implementing
  `re.search` semantics (leftmost match; greedy quantifiers; alternation tried
  left to right) for exactly those patterns.  Python's `\d` and `\s` also
  match some non-ASCII Unicode characters; `\s` is modelled with the full
  Unicode whitespace set, `\d` with ASCII digits (the only digits the tool
  emits).
* The subprocess itself is an oracle: a `ProcOutcome` value says whether the
  run timed out (with the partially buffered streams), failed to start, or
  completed with a return code and the two captured streams.
-/

namespace SIR

/- Batteries marks the primitive `Rat` operations `@[irreducible]`; making
them semireducible again (locally) lets `decide` evaluate concrete rational
results.  Kernel checking is unaffected. -/
attribute [local semireducible] Rat.mul Rat.add Rat.inv Rat.sub

/-- Unicode code points matched by Python's regex class `\s` (str patterns). -/
def pySpaceCodes : List Nat :=
  [0x09, 0x0A, 0x0B, 0x0C, 0x0D, 0x1C, 0x1D, 0x1E, 0x1F, 0x20,
   0x85, 0xA0, 0x1680, 0x2000, 0x2001, 0x2002, 0x2003, 0x2004, 0x2005,
   0x2006, 0x2007, 0x2008, 0x2009, 0x200A, 0x2028, 0x2029, 0x202F,
   0x205F, 0x3000]

/-- Python regex `\s` on a single character. -/
def pyIsSpace (c : Char) : Bool := pySpaceCodes.contains c.toNat

/-- Python regex `\d` (restricted to ASCII digits, see module comment). -/
def isDig (c : Char) : Bool := '0' ≤ c && c ≤ '9'

/-- Match a literal run of characters at the head of `s`; on success return
the remaining input. -/
def dropLit : List Char → List Char → Option (List Char)
  | [], s => some s
  | _ :: _, [] => none
  | a :: ls, b :: ss => if a = b then dropLit ls ss else none

/-- Match the regex fragment `\d+(\.\d*)?|\.\d+` (the unsigned mantissa of
`_FLOAT_RE`) at the head of `s`, greedily; return the consumed characters and
the remaining input.  The first alternative is tried first, as `re` does. -/
def matchMantissa (s : List Char) : Option (List Char × List Char) :=
  let (ds, r) := s.span isDig
  if ds.isEmpty then
    match r with
    | '.' :: r2 =>
      let (fs, r3) := r2.span isDig
      if fs.isEmpty then none else some ('.' :: fs, r3)
    | _ => none
  else
    match r with
    | '.' :: r2 =>
      let (fs, r3) := r2.span isDig
      some (ds ++ '.' :: fs, r3)
    | _ => some (ds, r)

/-- Match the optional regex fragment `(?:[eE][+-]?\d+)?` at the head of `s`:
return the consumed characters (possibly none) and the remaining input.
If the digits after `[eE][+-]?` are missing the whole group matches empty,
exactly as the regex engine backtracks. -/
def matchExp (s : List Char) : List Char × List Char :=
  match s with
  | e :: r =>
    if e = 'e' ∨ e = 'E' then
      match r with
      | c :: r2 =>
        if c = '+' ∨ c = '-' then
          let (ds, r3) := r2.span isDig
          if ds.isEmpty then ([], s) else (e :: c :: ds, r3)
        else
          let (ds, r2') := r.span isDig
          if ds.isEmpty then ([], s) else (e :: ds, r2')
      | [] => ([], s)
    else ([], s)
  | [] => ([], s)

/-- Match `_FLOAT_RE = ([+-]?(?:\d+(?:\.\d*)?|\.\d+)(?:[eE][+-]?\d+)?)` at the
head of `s`; return the captured group.  (If the sign is present but no
mantissa follows, dropping the optional sign cannot help, since `+`/`-` start
no mantissa; so no backtracking over the sign is needed.) -/
def matchFloatAt (s : List Char) : Option (List Char) :=
  match s with
  | c :: r =>
    if c = '+' ∨ c = '-' then
      match matchMantissa r with
      | some (m, r2) => some (c :: m ++ (matchExp r2).1)
      | none => none
    else
      match matchMantissa s with
      | some (m, r2) => some (m ++ (matchExp r2).1)
      | none => none
  | [] => none

/-- Match `([+-]?\d+)` (the capture group of `_RE_LSBEXT`) at the head of `s`. -/
def matchIntAt (s : List Char) : Option (List Char) :=
  match s with
  | c :: r =>
    if c = '+' ∨ c = '-' then
      let ds := r.takeWhile isDig
      if ds.isEmpty then none else some (c :: ds)
    else
      let ds := s.takeWhile isDig
      if ds.isEmpty then none else some ds
  | [] => none

/-- Match `:\s*<label>=` followed by `_FLOAT_RE` at the head of `s` (the common
tail of `_RE_H` and `_RE_HEPS`); `label` is `H=` or `Heps=`.  `\s*` is greedy
and its maximal munch is exact because no `\s` character can start `label`. -/
def matchGainTail (label : List Char) (s : List Char) : Option (List Char) :=
  match s with
  | ':' :: r =>
    match dropLit label (r.dropWhile pyIsSpace) with
    | some r2 => matchFloatAt r2
    | none => none
  | _ => none

/-- Attempt `_RE_H` at the head of `s`; return the captured numeric string.
The alternation tries `Computed filter worst-case peak gain` first. -/
def matchHAt (s : List Char) : Option (List Char) :=
  match dropLit "Computed filter worst-case peak gain".data s with
  | some r => matchGainTail "H=".data r
  | none =>
    match dropLit "Filter worst-case peak gain".data s with
    | some r => matchGainTail "H=".data r
    | none => none

/-- Attempt `_RE_HEPS` at the head of `s`. -/
def matchHepsAt (s : List Char) : Option (List Char) :=
  match dropLit "Computed error amplification worst-case peak gain".data s with
  | some r => matchGainTail "Heps=".data r
  | none =>
    match dropLit "Error amplification worst-case peak gain".data s with
    | some r => matchGainTail "Heps=".data r
    | none => none

/-- Attempt `_RE_LSBEXT = Building an IIR filter faithful to\s*lsbExt=([+-]?\d+)`
at the head of `s`. -/
def matchLsbExtAt (s : List Char) : Option (List Char) :=
  match dropLit "Building an IIR filter faithful to".data s with
  | some r =>
    match dropLit "lsbExt=".data (r.dropWhile pyIsSpace) with
    | some r2 => matchIntAt r2
    | none => none
  | none => none

/-- `re.search` semantics: try the pattern at every position, left to right,
and return the first (leftmost) successful match. -/
def reSearch (m : List Char → Option (List Char)) : List Char → Option (List Char)
  | [] => m []
  | s@(_ :: t) =>
    match m s with
    | some v => some v
    | none => reSearch m t

/-- `_RE_H.search`, returning the group-1 characters of the leftmost match. -/
def searchH (s : List Char) : Option (List Char) := reSearch matchHAt s

/-- `_RE_HEPS.search`. -/
def searchHeps (s : List Char) : Option (List Char) := reSearch matchHepsAt s

/-- `_RE_LSBEXT.search`. -/
def searchLsbExt (s : List Char) : Option (List Char) := reSearch matchLsbExtAt s

/-- Value of a run of ASCII digits. -/
def digitsToNat (ds : List Char) : Nat :=
  ds.foldl (fun a c => 10 * a + (c.toNat - '0'.toNat)) 0

/-- Python `int()` applied to a string matched by `([+-]?\d+)`. -/
def intOfChars (s : List Char) : Int :=
  match s with
  | '+' :: r => (digitsToNat r : Int)
  | '-' :: r => -(digitsToNat r : Int)
  | _ => (digitsToNat s : Int)

/-- `10^e` over the rationals, for a signed exponent. -/
def pow10 (e : Int) : Rat :=
  if 0 ≤ e then ((10 : Rat) ^ e.toNat) else ((10 : Rat) ^ (-e).toNat)⁻¹

/-- Exponent part of a `_FLOAT_RE` match: `[eE][+-]?\d+`, or empty. -/
def expValue (s : List Char) : Int :=
  match s with
  | 'e' :: r => intOfChars r
  | 'E' :: r => intOfChars r
  | _ => 0

/-- Python `float()` applied to an unsigned string of the `_FLOAT_RE` grammar,
with exact rational semantics: integer part, optional fraction, optional
exponent. -/
def floatOfCharsU (s : List Char) : Rat :=
  let (ip, r1) := s.span isDig
  let fr : List Char × List Char :=
    match r1 with
    | '.' :: r => r.span isDig
    | _ => ([], r1)
  (((digitsToNat ip : Rat) + (digitsToNat fr.1 : Rat) / (10 : Rat) ^ fr.1.length))
    * pow10 (expValue fr.2)

/-- Python `float()` applied to a string of the `_FLOAT_RE` grammar. -/
def floatOfChars (s : List Char) : Rat :=
  match s with
  | '+' :: r => floatOfCharsU r
  | '-' :: r => -floatOfCharsU r
  | _ => floatOfCharsU s

/-! ### UTF-8 decoding with replacement

Python's `bytes.decode("utf-8", errors="replace")`: malformed input never
raises; each maximal invalid subpart is replaced with U+FFFD. -/

/-- The Unicode replacement character U+FFFD. -/
def replacementChar : Char := Char.ofNat 0xFFFD

/-- A valid UTF-8 continuation byte. -/
def contOK (b : Nat) : Bool := 0x80 ≤ b && b ≤ 0xBF

/-- Valid first continuation byte after a 3-byte leader (excludes overlong
forms and surrogates, as a conformant UTF-8 decoder does). -/
def cont1OK3 (b b2 : Nat) : Bool :=
  if b = 0xE0 then 0xA0 ≤ b2 && b2 ≤ 0xBF
  else if b = 0xED then 0x80 ≤ b2 && b2 ≤ 0x9F
  else contOK b2

/-- Valid first continuation byte after a 4-byte leader. -/
def cont1OK4 (b b2 : Nat) : Bool :=
  if b = 0xF0 then 0x90 ≤ b2 && b2 ≤ 0xBF
  else if b = 0xF4 then 0x80 ≤ b2 && b2 ≤ 0x8F
  else contOK b2

/-- One step of UTF-8 decoding with replacement: decode the code point
starting at the head of the input (or U+FFFD for a maximal invalid subpart)
and return the remaining bytes; always consumes at least one byte of a
non-empty input. -/
def utf8Step : List Nat → Char × List Nat
  | [] => (replacementChar, [])
  | b :: rest =>
    if b < 0x80 then (Char.ofNat b, rest)
    else if 0xC2 ≤ b && b ≤ 0xDF then
      match rest with
      | b2 :: rest2 =>
        if contOK b2 then (Char.ofNat ((b - 0xC0) * 0x40 + (b2 - 0x80)), rest2)
        else (replacementChar, rest)
      | [] => (replacementChar, [])
    else if 0xE0 ≤ b && b ≤ 0xEF then
      match rest with
      | b2 :: rest2 =>
        if cont1OK3 b b2 then
          match rest2 with
          | b3 :: rest3 =>
            if contOK b3 then
              (Char.ofNat ((b - 0xE0) * 0x1000 + (b2 - 0x80) * 0x40 + (b3 - 0x80)), rest3)
            else (replacementChar, rest2)
          | [] => (replacementChar, [])
        else (replacementChar, rest)
      | [] => (replacementChar, [])
    else if 0xF0 ≤ b && b ≤ 0xF4 then
      match rest with
      | b2 :: rest2 =>
        if cont1OK4 b b2 then
          match rest2 with
          | b3 :: rest3 =>
            if contOK b3 then
              match rest3 with
              | b4 :: rest4 =>
                if contOK b4 then
                  (Char.ofNat ((b - 0xF0) * 0x40000 + (b2 - 0x80) * 0x1000
                      + (b3 - 0x80) * 0x40 + (b4 - 0x80)), rest4)
                else (replacementChar, rest3)
              | [] => (replacementChar, [])
            else (replacementChar, rest2)
          | [] => (replacementChar, [])
        else (replacementChar, rest)
      | [] => (replacementChar, [])
    else (replacementChar, rest)

/-- Driver for UTF-8 decoding: `fuel` bounds the number of decoded code
points; since every step consumes at least one byte, `fuel = length` decodes
the whole input. -/
def utf8DecodeGo : Nat → List Nat → List Char
  | 0, _ => []
  | _, [] => []
  | fuel + 1, b :: rest =>
    let st := utf8Step (b :: rest)
    st.1 :: utf8DecodeGo fuel st.2

/-- UTF-8 decoding with U+FFFD replacement of maximal invalid subparts
(`errors="replace"`); total on every byte list. -/
def utf8DecodeReplace (bs : List Nat) : List Char := utf8DecodeGo bs.length bs

/-- `(stream or b"").decode("utf-8", errors="replace")`: an absent stream is
treated as empty. -/
def decodeStream : Option (List Nat) → List Char
  | none => []
  | some bs => utf8DecodeReplace bs

/-- `raw_log = stdout + "\n" + stderr`: the concatenated log text, in the
fixed stdout-then-stderr order, used for every parse attempt. -/
def rawLogOf (stdout stderr : Option (List Nat)) : List Char :=
  decodeStream stdout ++ '\n' :: decodeStream stderr

/-! ### The metrics extractor -/

/-- The result record `FixIIRMetrics` of the source. -/
structure FixIIRMetrics where
  H : Rat
  Heps : Option Rat
  lsbExt : Int
  raw_log : List Char
  timedOut : Bool := false
deriving Repr, DecidableEq

/-- The failure modes of `run_fixiir_and_parse_metrics` (each raised as a
`RuntimeError` in the source, with the shown payload embedded in the
message). -/
inductive RunError where
  /-- Timeout and the partial log lacks H or lsbExt; carries `timeout_s` and
  the partial log. -/
  | timeout (timeout_s : Option Rat) (log : List Char)
  /-- `FileNotFoundError`: carries the resolved executable path. -/
  | notFound (exe : List Char)
  /-- Non-zero exit code; carries the code and the full log. -/
  | exited (code : Int) (log : List Char)
  /-- Clean exit but H unparseable and no fallback; carries the log. -/
  | parseH (log : List Char)
  /-- Clean exit but lsbExt unparseable; carries the log. -/
  | parseLsb (log : List Char)
deriving Repr, DecidableEq

/-- Outcome of the `subprocess.run` call, supplied as an oracle: the child
either hit the timeout (with the bytes buffered so far on each stream),
could not be started, or completed with a return code and captured streams. -/
inductive ProcOutcome where
  | timeoutExpired (stdout stderr : Option (List Nat))
  | fileNotFound
  | completed (returncode : Int) (stdout stderr : Option (List Nat))

/-- Caller-supplied parameters of `run_fixiir_and_parse_metrics`, plus the
ambient result of `shutil.which("flopoco")` (the environment's search-path
lookup, `None` when not found). -/
structure RunParams where
  coeffb : List Char
  coeffa : List Char
  lsbIn : Int
  lsbOut : Int
  loglevel : Int := 1
  generateFigures : Int := 0
  flopoco_exe : Option (List Char) := none
  extra_args : List (List Char) := []
  timeout_s : Option Rat := none
  fallback_H : Option Rat := none
  which_flopoco : Option (List Char) := none

/-- `_resolve_flopoco_exe`: explicit path if truthy (Python: `None` and the
empty string are both falsy), else the `shutil.which("flopoco")` result if
truthy, else the conventional local build path. -/
def resolve_flopoco_exe (flopoco_exe which_flopoco : Option (List Char)) : List Char :=
  if flopoco_exe.getD [] ≠ [] then flopoco_exe.getD []
  else if which_flopoco.getD [] ≠ [] then which_flopoco.getD []
  else "./build/flopoco".data

/-- The command line built by `run_fixiir_and_parse_metrics` (the `cmd` list,
with `extra_args` extended at the end; extending by an empty list and the
source's `if extra_args:` guard agree). -/
def fixiir_cmd (p : RunParams) : List (List Char) :=
  [resolve_flopoco_exe p.flopoco_exe p.which_flopoco,
   "generateFigures=".data ++ (toString p.generateFigures).data,
   "FixIIR".data,
   "coeffb=".data ++ p.coeffb,
   "coeffa=".data ++ p.coeffa,
   "lsbIn=".data ++ (toString p.lsbIn).data,
   "lsbOut=".data ++ (toString p.lsbOut).data,
   "loglevel=".data ++ (toString p.loglevel).data]
  ++ p.extra_args

/-- `run_fixiir_and_parse_metrics`, branching on the subprocess outcome:
timeout path with best-effort recovery, executable-not-found path, non-zero
exit path, and the clean-exit parse path with the `fallback_H` policy. -/
def run_fixiir_and_parse_metrics (p : RunParams) (outcome : ProcOutcome) :
    Except RunError FixIIRMetrics :=
  match outcome with
  | .timeoutExpired o e =>
    let raw_log := rawLogOf o e
    match searchH raw_log, searchLsbExt raw_log with
    | some mH, some mlsb =>
      .ok { H := floatOfChars mH
            Heps := (searchHeps raw_log).map floatOfChars
            lsbExt := intOfChars mlsb
            raw_log := raw_log
            timedOut := true }
    | _, _ => .error (.timeout p.timeout_s raw_log)
  | .fileNotFound =>
    .error (.notFound (resolve_flopoco_exe p.flopoco_exe p.which_flopoco))
  | .completed rc o e =>
    let raw_log := rawLogOf o e
    if rc ≠ 0 then .error (.exited rc raw_log)
    else
      match searchH raw_log, p.fallback_H with
      | none, none => .error (.parseH raw_log)
      | mH?, fb =>
        let H : Rat :=
          match mH? with
          | some mH => floatOfChars mH
          | none => fb.getD 0
        let Heps := (searchHeps raw_log).map floatOfChars
        match searchLsbExt raw_log with
        | none => .error (.parseLsb raw_log)
        | some mlsb =>
          .ok { H := H, Heps := Heps, lsbExt := intOfChars mlsb
                raw_log := raw_log, timedOut := false }

/-! ### Truth-table generator (`table_verite.py`) -/

/-- `compteur(n)`: the 8 bits of `n`, most significant first. -/
def compteur (n : Nat) : List Nat :=
  ((List.range 8).reverse).map (fun i => (n >>> i) % 2)

/-- `bit3(n)`: the 3 bits of `n`, most significant first. -/
def bit3 (n : Nat) : List Nat :=
  ((List.range 3).reverse).map (fun i => (n >>> i) % 2)

/-- The `while k >= 0` loop of `sortie`, with `fuel = k + 1`; the Python index
access `compteur(n)[k]` is always in bounds for `0 ≤ k ≤ 7`, so the `getD`
default is never used. -/
def sortieLoop (n : Nat) : Nat → List Nat
  | 0 => List.replicate 8 0 ++ List.replicate 3 0
  | k + 1 =>
    if (compteur n).getD k 1 = 0 then
      (List.range 8).map (fun i => if i = k then 1 else 0) ++ bit3 (7 - k)
    else sortieLoop n k

/-- `sortie(n)`: scan `compteur(n)` from index 7 down to 0 for the first zero
entry; emit a one-hot 8-vector at that index followed by `bit3(7-k)`, or
eleven zeros when every entry is 1. -/
def sortie (n : Nat) : List Nat := sortieLoop n 8

/-! ### Auxiliary definitions for the statements -/

/-- UTF-8 bytes of an ASCII string (used to build concrete subprocess
outputs). -/
def asciiBytes (s : String) : List Nat := s.data.map Char.toNat

/-- A fixed set of caller parameters. -/
def pDefault : RunParams :=
  { coeffb := "1.0".data, coeffa := "0.5".data, lsbIn := -12, lsbOut := -12 }

/-- What the timeout branch computes from the concatenated log text
(characterization used to state that the timeout path parses exactly the
stdout-newline-stderr concatenation). -/
def timeoutStep (p : RunParams) (L : List Char) : Except RunError FixIIRMetrics :=
  match searchH L, searchLsbExt L with
  | some mH, some mlsb =>
    .ok { H := floatOfChars mH, Heps := (searchHeps L).map floatOfChars,
          lsbExt := intOfChars mlsb, raw_log := L, timedOut := true }
  | _, _ => .error (.timeout p.timeout_s L)

/-- What the completed branch computes from the return code and the
concatenated log text. -/
def completedStep (p : RunParams) (rc : Int) (L : List Char) :
    Except RunError FixIIRMetrics :=
  if rc ≠ 0 then .error (.exited rc L)
  else
    match searchH L, p.fallback_H with
    | none, none => .error (.parseH L)
    | mH?, fb =>
      match searchLsbExt L with
      | none => .error (.parseLsb L)
      | some mlsb =>
        .ok { H := (match mH? with | some mH => floatOfChars mH | none => fb.getD 0)
              Heps := (searchHeps L).map floatOfChars
              lsbExt := intOfChars mlsb, raw_log := L, timedOut := false }

/-- Strings matchable by the sign fragment `[+-]?` of `_FLOAT_RE`. -/
def signOpt (s : List Char) : Prop := s = [] ∨ s = ['+'] ∨ s = ['-']

/-- Strings matchable by the mantissa fragment `\d+(?:\.\d*)?|\.\d+` of
`_FLOAT_RE`. -/
def mantissaLit (m : List Char) : Prop :=
  (∃ ds fs, ds ≠ [] ∧ (∀ c ∈ ds, isDig c = true) ∧ (∀ c ∈ fs, isDig c = true) ∧
    (m = ds ∨ m = ds ++ '.' :: fs)) ∨
  (∃ fs, fs ≠ [] ∧ (∀ c ∈ fs, isDig c = true) ∧ m = '.' :: fs)

/-- Strings matchable by the optional exponent fragment `(?:[eE][+-]?\d+)?`
of `_FLOAT_RE` (the empty string when the group is not taken). -/
def expoLit (x : List Char) : Prop :=
  x = [] ∨ ∃ e sg ds, (e = 'e' ∨ e = 'E') ∧ signOpt sg ∧ ds ≠ [] ∧
    (∀ c ∈ ds, isDig c = true) ∧ x = e :: (sg ++ ds)

/-- Strings matchable by the whole capture group of `_FLOAT_RE`: every
numeric payload the H/Heps patterns accept. -/
def floatLit (f : List Char) : Prop :=
  ∃ sgn m x, signOpt sgn ∧ mantissaLit m ∧ expoLit x ∧ f = sgn ++ (m ++ x)

instance {ε α : Type} [DecidableEq ε] [DecidableEq α] : DecidableEq (Except ε α) := fun a b =>
  match a, b with
  | .error e, .error f =>
    if h : e = f then .isTrue (by rw [h]) else .isFalse (by simp [h])
  | .error _, .ok _ => .isFalse (by simp)
  | .ok _, .error _ => .isFalse (by simp)
  | .ok a, .ok b =>
    if h : a = b then .isTrue (by rw [h]) else .isFalse (by simp [h])

/-! ## Helper lemmas -/

theorem reSearch_head {m : List Char → Option (List Char)} {s v : List Char}
    (h : m s = some v) : reSearch m s = some v := by
  cases s with
  | nil => simpa [reSearch] using h
  | cons a t => simp [reSearch, h]

theorem dropLit_self_append (lit r : List Char) : dropLit lit (lit ++ r) = some r := by
  induction lit with
  | nil => rfl
  | cons a ls ih => simp [dropLit, ih]

theorem span_digits_nl (ds rest : List Char) (hdig : ∀ c ∈ ds, isDig c = true) :
    (ds ++ '\n' :: rest).span isDig = (ds, '\n' :: rest) := by
  rw [List.span_eq_take_drop, List.takeWhile_append_of_pos hdig,
      List.dropWhile_append_of_pos hdig,
      List.takeWhile_cons_of_neg (by decide), List.dropWhile_cons_of_neg (by decide),
      List.append_nil]

theorem isDig_not_sign {d : Char} (hd : isDig d = true) : ¬(d = '+' ∨ d = '-') := by
  rintro (rfl | rfl) <;> revert hd <;> decide

theorem matchMantissa_digits (ds rest : List Char) (hds : ds ≠ [])
    (hdig : ∀ c ∈ ds, isDig c = true) :
    matchMantissa (ds ++ '\n' :: rest) = some (ds, '\n' :: rest) := by
  unfold matchMantissa
  rw [span_digits_nl ds rest hdig]
  simp [hds, List.isEmpty_eq_true]

theorem matchExp_nl (rest : List Char) : matchExp ('\n' :: rest) = ([], '\n' :: rest) := by
  simp [matchExp]

theorem matchFloatAt_digits (ds rest : List Char) (hds : ds ≠ [])
    (hdig : ∀ c ∈ ds, isDig c = true) :
    matchFloatAt (ds ++ '\n' :: rest) = some ds := by
  cases ds with
  | nil => exact absurd rfl hds
  | cons d ds' =>
    have hsign := isDig_not_sign (hdig d (by simp))
    rw [List.cons_append]
    rw [show matchFloatAt (d :: (ds' ++ '\n' :: rest)) =
          if d = '+' ∨ d = '-' then
            match matchMantissa (ds' ++ '\n' :: rest) with
            | some (m, r2) => some (d :: m ++ (matchExp r2).1)
            | none => none
          else
            match matchMantissa (d :: (ds' ++ '\n' :: rest)) with
            | some (m, r2) => some (m ++ (matchExp r2).1)
            | none => none
        from rfl]
    rw [if_neg hsign, ← List.cons_append,
        matchMantissa_digits (d :: ds') rest hds hdig]
    simp [matchExp_nl]

theorem matchIntAt_signed (sgn ds rest : List Char)
    (hs : sgn = [] ∨ sgn = ['+'] ∨ sgn = ['-']) (hds : ds ≠ [])
    (hdig : ∀ c ∈ ds, isDig c = true) :
    matchIntAt (sgn ++ ds ++ '\n' :: rest) = some (sgn ++ ds) := by
  have htw : (ds ++ '\n' :: rest).takeWhile isDig = ds := by
    rw [List.takeWhile_append_of_pos hdig, List.takeWhile_cons_of_neg (by decide),
        List.append_nil]
  rcases hs with rfl | rfl | rfl
  · cases ds with
    | nil => exact absurd rfl hds
    | cons d ds' =>
      have hsign := isDig_not_sign (hdig d (by simp))
      rw [List.nil_append, List.cons_append]
      rw [show matchIntAt (d :: (ds' ++ '\n' :: rest)) =
            if d = '+' ∨ d = '-' then
              let l := (ds' ++ '\n' :: rest).takeWhile isDig
              if l.isEmpty then none else some (d :: l)
            else
              let l := (d :: (ds' ++ '\n' :: rest)).takeWhile isDig
              if l.isEmpty then none else some l
          from rfl]
      rw [if_neg hsign]
      simp only [← List.cons_append, htw]
      simp [hds]
  · change matchIntAt ('+' :: (ds ++ '\n' :: rest)) = some ('+' :: ds)
    simp only [matchIntAt]
    simp [htw, List.isEmpty_eq_true, hds]
  · change matchIntAt ('-' :: (ds ++ '\n' :: rest)) = some ('-' :: ds)
    simp only [matchIntAt]
    simp [htw, List.isEmpty_eq_true, hds]

theorem matchHAt_computed (x : List Char) :
    matchHAt ("Computed filter worst-case peak gain: H=".data ++ x) = matchFloatAt x := rfl

theorem matchHAt_bare (x : List Char) :
    matchHAt ("Filter worst-case peak gain: H=".data ++ x) = matchFloatAt x := rfl

theorem matchLsbExtAt_line (x : List Char) :
    matchLsbExtAt ("Building an IIR filter faithful to lsbExt=".data ++ x) = matchIntAt x := rfl

/-! ## Claims -/

/-- C3: whenever the child process exits with a non-zero code, the call fails
with an error carrying that exit code and the full decoded log; no
`FixIIRMetrics` result is produced, for any log content. -/
theorem C3_nonzero_exit (p : RunParams) (rc : Int) (o e : Option (List Nat))
    (h : rc ≠ 0) :
    run_fixiir_and_parse_metrics p (.completed rc o e) =
      .error (.exited rc (rawLogOf o e)) := by
  simp [run_fixiir_and_parse_metrics, h]

/-- Witness for C3: exit code 1 with a log containing all three metric lines
still fails (no partial result is fabricated). -/
theorem C3_nonzero_exit_witness :
    run_fixiir_and_parse_metrics pDefault
      (.completed 1 (some (asciiBytes
        "Filter worst-case peak gain: H=1.0\nBuilding an IIR filter faithful to lsbExt=4")) none) =
      .error (.exited 1
        "Filter worst-case peak gain: H=1.0\nBuilding an IIR filter faithful to lsbExt=4\n".data) :=
  (C3_nonzero_exit pDefault 1 _ none (by decide)).trans (by decide)

/-- C4: decoding is total (absent streams decode to the empty text), the
concatenated log is always decoded-stdout, a newline, then decoded-stderr,
and this same text is the input of every parse attempt on both the timeout
path and the completed path. -/
theorem C4_decode_concat (p : RunParams) (o e : Option (List Nat)) (rc : Int) :
    decodeStream none = [] ∧
    rawLogOf o e = decodeStream o ++ '\n' :: decodeStream e ∧
    run_fixiir_and_parse_metrics p (.timeoutExpired o e) =
      timeoutStep p (rawLogOf o e) ∧
    run_fixiir_and_parse_metrics p (.completed rc o e) =
      completedStep p rc (rawLogOf o e) := by
  refine ⟨rfl, rfl, rfl, ?_⟩
  by_cases hrc : rc = 0
  · subst hrc
    simp only [run_fixiir_and_parse_metrics, completedStep]
  · simp [run_fixiir_and_parse_metrics, completedStep, hrc]

/-- C6: the command line is built in the fixed order: resolved executable,
generateFigures, the literal operator name, coeffb, coeffa, lsbIn, lsbOut,
loglevel, then every extra argument verbatim in caller order. -/
theorem C6_cmd_order (p : RunParams) :
    (fixiir_cmd p).take 8 =
      [resolve_flopoco_exe p.flopoco_exe p.which_flopoco,
       "generateFigures=".data ++ (toString p.generateFigures).data,
       "FixIIR".data,
       "coeffb=".data ++ p.coeffb,
       "coeffa=".data ++ p.coeffa,
       "lsbIn=".data ++ (toString p.lsbIn).data,
       "lsbOut=".data ++ (toString p.lsbOut).data,
       "loglevel=".data ++ (toString p.loglevel).data] ∧
    (fixiir_cmd p).drop 8 = p.extra_args := by
  unfold fixiir_cmd
  exact ⟨List.take_left' rfl, List.drop_left' rfl⟩

/-- C7 counterexample: an explicitly given empty executable path is falsy in
Python, so it is not used verbatim — the search-path result wins instead. -/
theorem C7_explicit_path_counterexample :
    resolve_flopoco_exe (some "".data) (some "/usr/bin/flopoco".data) =
      "/usr/bin/flopoco".data ∧
    "/usr/bin/flopoco".data ≠ "".data := by decide

/-- C7 (amended): an explicitly given non-empty path is used verbatim (even if
a same-named executable is on the search path); an empty or absent explicit
path falls back to the search-path result when that is non-empty, else to the
conventional local build path; the result is never the empty string. -/
theorem C7_resolution_amended (fe w : Option (List Char)) :
    (∀ s, fe = some s → s ≠ [] → resolve_flopoco_exe fe w = s) ∧
    (fe = none ∨ fe = some [] → ∀ f, w = some f → f ≠ [] →
      resolve_flopoco_exe fe w = f) ∧
    (fe = none ∨ fe = some [] → w = none ∨ w = some [] →
      resolve_flopoco_exe fe w = "./build/flopoco".data) ∧
    resolve_flopoco_exe fe w ≠ [] := by
  refine ⟨?_, ?_, ?_, ?_⟩
  · rintro s rfl hs
    simp [resolve_flopoco_exe, hs]
  · rintro (rfl | rfl) f rfl hf <;> simp [resolve_flopoco_exe, hf]
  · rintro (rfl | rfl) (rfl | rfl) <;> simp [resolve_flopoco_exe]
  · unfold resolve_flopoco_exe
    split_ifs with h1 h2
    · exact h1
    · exact h2
    · decide

/-- Witness for C7 (amended): verbatim use despite a search-path hit; the
search-path fallback; the local build-path fallback. -/
theorem C7_resolution_amended_witness :
    resolve_flopoco_exe (some "/opt/flopoco".data) (some "/usr/bin/flopoco".data) =
      "/opt/flopoco".data ∧
    resolve_flopoco_exe none (some "/usr/bin/flopoco".data) = "/usr/bin/flopoco".data ∧
    resolve_flopoco_exe none none = "./build/flopoco".data :=
  ⟨(C7_resolution_amended _ _).1 _ rfl (by decide),
   (C7_resolution_amended _ _).2.1 (Or.inl rfl) _ rfl (by decide),
   (C7_resolution_amended _ _).2.2.1 (Or.inl rfl) (Or.inl rfl)⟩

/-- C1: on a subprocess timeout, if both the H pattern and the lsbExt pattern
match the partial decoded log the call returns a result with
`timedOut = true` (Heps set only when its pattern matches); if either is
missing the call fails with a timeout error carrying the partial log; and the
spec's example (partial output with the H line and the lsbExt line already
buffered) yields H=1.0, lsbExt=4, timedOut=true rather than an error. -/
theorem C1_timeout_recovery (p : RunParams) (o e : Option (List Nat)) :
    (∀ mH mlsb, searchH (rawLogOf o e) = some mH →
      searchLsbExt (rawLogOf o e) = some mlsb →
      run_fixiir_and_parse_metrics p (.timeoutExpired o e) =
        .ok { H := floatOfChars mH
              Heps := (searchHeps (rawLogOf o e)).map floatOfChars
              lsbExt := intOfChars mlsb
              raw_log := rawLogOf o e
              timedOut := true }) ∧
    (searchH (rawLogOf o e) = none ∨ searchLsbExt (rawLogOf o e) = none →
      run_fixiir_and_parse_metrics p (.timeoutExpired o e) =
        .error (.timeout p.timeout_s (rawLogOf o e))) ∧
    run_fixiir_and_parse_metrics pDefault (.timeoutExpired
        (some (asciiBytes
          "Filter worst-case peak gain: H=1.0\nBuilding an IIR filter faithful to lsbExt=4")) none) =
      .ok { H := 1, Heps := none, lsbExt := 4,
            raw_log :=
              "Filter worst-case peak gain: H=1.0\nBuilding an IIR filter faithful to lsbExt=4\n".data,
            timedOut := true } := by
  refine ⟨?_, ?_, ?_⟩
  · intro mH mlsb h1 h2
    simp [run_fixiir_and_parse_metrics, h1, h2]
  · rintro (h | h)
    · cases h2 : searchLsbExt (rawLogOf o e) <;>
        simp [run_fixiir_and_parse_metrics, h, h2]
    · cases h1 : searchH (rawLogOf o e) <;>
        simp [run_fixiir_and_parse_metrics, h, h1]
  · decide

/-- Witness for C1: a timeout whose partial log has both the H line and the
lsbExt line is recovered; one whose partial log has only the H line raises a
timeout error carrying the partial text. -/
theorem C1_timeout_recovery_witness :
    run_fixiir_and_parse_metrics pDefault (.timeoutExpired
        (some (asciiBytes
          "Computed filter worst-case peak gain: H=2.5\nBuilding an IIR filter faithful to lsbExt=-3")) none) =
      .ok { H := 5/2, Heps := none, lsbExt := -3,
            raw_log :=
              "Computed filter worst-case peak gain: H=2.5\nBuilding an IIR filter faithful to lsbExt=-3\n".data,
            timedOut := true } ∧
    run_fixiir_and_parse_metrics pDefault (.timeoutExpired
        (some (asciiBytes "Computed filter worst-case peak gain: H=2.5")) none) =
      .error (.timeout none "Computed filter worst-case peak gain: H=2.5\n".data) := by
  constructor
  · exact ((C1_timeout_recovery pDefault _ none).1 "2.5".data "-3".data
      (by decide) (by decide)).trans (by decide)
  · exact ((C1_timeout_recovery pDefault _ none).2.1 (Or.inr (by decide))).trans
      (by decide)

/-- C2: on a clean (zero) exit, a missing H pattern is replaced by
`fallback_H` when provided; with no fallback the call fails with an error
carrying the log; and a missing lsbExt pattern always makes the call fail
with an error carrying the log (there is no fallback for lsbExt). -/
theorem C2_clean_exit_fallback (p : RunParams) (o e : Option (List Nat)) :
    (∀ f, searchH (rawLogOf o e) = none → p.fallback_H = some f →
      ∀ r, run_fixiir_and_parse_metrics p (.completed 0 o e) = .ok r → r.H = f) ∧
    (searchH (rawLogOf o e) = none → p.fallback_H = none →
      run_fixiir_and_parse_metrics p (.completed 0 o e) =
        .error (.parseH (rawLogOf o e))) ∧
    (searchLsbExt (rawLogOf o e) = none →
      run_fixiir_and_parse_metrics p (.completed 0 o e) =
        .error (.parseH (rawLogOf o e)) ∨
      run_fixiir_and_parse_metrics p (.completed 0 o e) =
        .error (.parseLsb (rawLogOf o e))) := by
  refine ⟨?_, ?_, ?_⟩
  · intro f h1 h2 r hr
    cases h3 : searchLsbExt (rawLogOf o e) <;>
      simp [run_fixiir_and_parse_metrics, h1, h2, h3] at hr
    simp [← hr]
  · intro h1 h2
    simp [run_fixiir_and_parse_metrics, h1, h2]
  · intro h3
    cases h1 : searchH (rawLogOf o e) <;> cases h2 : p.fallback_H <;>
      simp [run_fixiir_and_parse_metrics, h1, h2, h3]

/-- Witness for C2: a clean-exit log with no H line and fallback 2.5 yields
H = 2.5; the same log with no fallback fails on H; a log with no lsbExt line
fails with an error carrying the log. -/
theorem C2_clean_exit_fallback_witness :
    ({ H := 5/2, Heps := none, lsbExt := 4,
       raw_log := "Building an IIR filter faithful to lsbExt=4\n".data,
       timedOut := false } : FixIIRMetrics).H = 5/2 ∧
    run_fixiir_and_parse_metrics pDefault
      (.completed 0 (some (asciiBytes "Building an IIR filter faithful to lsbExt=4")) none) =
      .error (.parseH "Building an IIR filter faithful to lsbExt=4\n".data) ∧
    (run_fixiir_and_parse_metrics pDefault
      (.completed 0 (some (asciiBytes "Filter worst-case peak gain: H=1.0")) none) =
      .error (.parseH (rawLogOf (some (asciiBytes "Filter worst-case peak gain: H=1.0")) none)) ∨
     run_fixiir_and_parse_metrics pDefault
      (.completed 0 (some (asciiBytes "Filter worst-case peak gain: H=1.0")) none) =
      .error (.parseLsb (rawLogOf (some (asciiBytes "Filter worst-case peak gain: H=1.0")) none))) := by
  refine ⟨?_, ?_, ?_⟩
  · exact (C2_clean_exit_fallback
      { pDefault with fallback_H := some (5/2) }
      (some (asciiBytes "Building an IIR filter faithful to lsbExt=4")) none).1 (5/2)
      (by decide) rfl
      { H := 5/2, Heps := none, lsbExt := 4,
        raw_log := "Building an IIR filter faithful to lsbExt=4\n".data,
        timedOut := false }
      (by decide)
  · exact ((C2_clean_exit_fallback pDefault _ none).2.1 (by decide) rfl).trans
      (by decide)
  · exact (C2_clean_exit_fallback pDefault _ none).2.2 (by decide)

/-- C8: when the Heps announcement line is absent from the log, any returned
result has Heps unset, and the call never fails solely because Heps is
absent: when H and lsbExt both parse, both the timeout path and the
clean-exit path succeed. -/
theorem C8_heps_optional (p : RunParams) (o e : Option (List Nat))
    (hheps : searchHeps (rawLogOf o e) = none) :
    (∀ r, run_fixiir_and_parse_metrics p (.timeoutExpired o e) = .ok r →
      r.Heps = none) ∧
    (∀ r, run_fixiir_and_parse_metrics p (.completed 0 o e) = .ok r →
      r.Heps = none) ∧
    (∀ mH mlsb, searchH (rawLogOf o e) = some mH →
      searchLsbExt (rawLogOf o e) = some mlsb →
      (∃ r, run_fixiir_and_parse_metrics p (.timeoutExpired o e) = .ok r) ∧
      (∃ r, run_fixiir_and_parse_metrics p (.completed 0 o e) = .ok r)) := by
  refine ⟨?_, ?_, ?_⟩
  · intro r hr
    cases h1 : searchH (rawLogOf o e) <;> cases h2 : searchLsbExt (rawLogOf o e) <;>
      simp [run_fixiir_and_parse_metrics, h1, h2, hheps] at hr
    simp [← hr]
  · intro r hr
    cases h1 : searchH (rawLogOf o e) <;> cases h2 : p.fallback_H <;>
      cases h3 : searchLsbExt (rawLogOf o e) <;>
      simp [run_fixiir_and_parse_metrics, h1, h2, h3, hheps] at hr <;>
      simp [← hr]
  · intro mH mlsb h1 h2
    constructor
    · exact ⟨{ H := floatOfChars mH
               Heps := (searchHeps (rawLogOf o e)).map floatOfChars
               lsbExt := intOfChars mlsb, raw_log := rawLogOf o e, timedOut := true },
             by simp [run_fixiir_and_parse_metrics, h1, h2]⟩
    · exact ⟨{ H := floatOfChars mH
               Heps := (searchHeps (rawLogOf o e)).map floatOfChars
               lsbExt := intOfChars mlsb, raw_log := rawLogOf o e, timedOut := false },
             by simp [run_fixiir_and_parse_metrics, h1, h2]⟩

/-- Witness for C8: a log with the H and lsbExt lines but no Heps line
succeeds on the timeout path with Heps unset. -/
theorem C8_heps_optional_witness :
    (∃ r, run_fixiir_and_parse_metrics pDefault (.timeoutExpired
        (some (asciiBytes
          "Filter worst-case peak gain: H=1.0\nBuilding an IIR filter faithful to lsbExt=4")) none) =
      .ok r ∧ r.Heps = none) := by
  obtain ⟨⟨r, hr⟩, -⟩ :=
    (C8_heps_optional pDefault (some (asciiBytes
        "Filter worst-case peak gain: H=1.0\nBuilding an IIR filter faithful to lsbExt=4")) none
      (by decide)).2.2 "1.0".data "4".data (by decide) (by decide)
  exact ⟨r, hr,
    (C8_heps_optional pDefault (some (asciiBytes
        "Filter worst-case peak gain: H=1.0\nBuilding an IIR filter faithful to lsbExt=4")) none
      (by decide)).1 r hr⟩

/-- Unfolding of `matchFloatAt` on a non-empty input. -/
theorem matchFloatAt_cons (c : Char) (r : List Char) :
    matchFloatAt (c :: r) =
      (if c = '+' ∨ c = '-' then
        match matchMantissa r with
        | some (m, r2) => some (c :: m ++ (matchExp r2).1)
        | none => none
      else
        match matchMantissa (c :: r) with
        | some (m, r2) => some (m ++ (matchExp r2).1)
        | none => none) := rfl

/-- Unfolding of `matchExp` on a non-empty input. -/
theorem matchExp_cons (a : Char) (r : List Char) :
    matchExp (a :: r) =
      (if a = 'e' ∨ a = 'E' then
        match r with
        | c :: r2 =>
          if c = '+' ∨ c = '-' then
            (let (ds, r3) := r2.span isDig
             if ds.isEmpty then ([], a :: r) else (a :: c :: ds, r3))
          else
            (let (ds, r2') := r.span isDig
             if ds.isEmpty then ([], a :: r) else (a :: ds, r2'))
        | [] => ([], a :: r)
      else ([], a :: r)) := rfl

theorem span_digits (ds : List Char) (c : Char) (u : List Char)
    (hdig : ∀ x ∈ ds, isDig x = true) (hc : isDig c = false) :
    (ds ++ c :: u).span isDig = (ds, c :: u) := by
  rw [List.span_eq_take_drop, List.takeWhile_append_of_pos hdig,
      List.dropWhile_append_of_pos hdig,
      List.takeWhile_cons_of_neg (by simp [hc]), List.dropWhile_cons_of_neg (by simp [hc]),
      List.append_nil]

/-- A mantissa-grammar string followed by a character that can extend neither
a digit run nor start a fraction is matched exactly, greedily. -/
theorem matchMantissa_lit (m : List Char) (c : Char) (u : List Char)
    (hm : mantissaLit m) (hc1 : isDig c = false) (hc2 : c ≠ '.') :
    matchMantissa (m ++ c :: u) = some (m, c :: u) := by
  rcases hm with ⟨ds, fs, hds, hdig, hfdig, hm2 | hm2⟩ | ⟨fs, hfs, hfdig, hm2⟩
  · rw [hm2]
    have hie : ¬ ds.isEmpty = true := by
      cases ds with
      | nil => exact absurd rfl hds
      | cons a l => simp
    unfold matchMantissa
    rw [span_digits ds c u hdig hc1]
    simp only []
    rw [if_neg hie]
    split
    · next r2 heq =>
        simp only [List.cons.injEq] at heq
        exact absurd heq.1 hc2
    · rfl
  · rw [hm2]
    have hie : ¬ ds.isEmpty = true := by
      cases ds with
      | nil => exact absurd rfl hds
      | cons a l => simp
    rw [List.append_assoc, List.cons_append]
    unfold matchMantissa
    rw [span_digits ds '.' (fs ++ c :: u) hdig (by decide)]
    simp only []
    rw [if_neg hie]
    rw [span_digits fs c u hfdig hc1]
  · rw [hm2, List.cons_append]
    have hsp : ('.' :: (fs ++ c :: u)).span isDig = ([], '.' :: (fs ++ c :: u)) := by
      rw [List.span_eq_take_drop, List.takeWhile_cons_of_neg (by decide),
          List.dropWhile_cons_of_neg (by decide)]
    unfold matchMantissa
    rw [hsp]
    simp only [List.isEmpty_nil, if_true]
    rw [span_digits fs c u hfdig hc1]
    simp [List.isEmpty_eq_true, hfs]

/-- An exponent-grammar string (possibly empty) followed by a newline is
matched exactly, greedily. -/
theorem matchExp_lit (x rest : List Char) (hx : expoLit x) :
    matchExp (x ++ '\n' :: rest) = (x, '\n' :: rest) := by
  rcases hx with rfl | ⟨e, sg, ds, he, hsg, hds, hdig, hx2⟩
  · rw [List.nil_append, matchExp_cons, if_neg (by decide)]
  · rw [hx2]
    cases ds with
    | nil => exact absurd rfl hds
    | cons d ds' =>
      have hdsign := isDig_not_sign (hdig d (by simp))
      have hd : isDig d = true := hdig d (by simp)
      have htake : List.takeWhile isDig ((d :: ds') ++ '\n' :: rest) = d :: ds' := by
        rw [List.takeWhile_append_of_pos hdig, List.takeWhile_cons_of_neg (by decide),
            List.append_nil]
      have hdrop : List.dropWhile isDig ((d :: ds') ++ '\n' :: rest) = '\n' :: rest := by
        rw [List.dropWhile_append_of_pos hdig, List.dropWhile_cons_of_neg (by decide)]
      simp only [List.cons_append] at htake hdrop
      rcases hsg with rfl | rfl | rfl
      · simp only [List.cons_append, List.nil_append]
        rw [matchExp_cons, if_pos he]
        simp [hdsign, hd, htake, hdrop, List.span_eq_take_drop]
      · simp only [List.cons_append, List.nil_append]
        rw [matchExp_cons, if_pos he]
        simp [hd, htake, hdrop, List.span_eq_take_drop]
      · simp only [List.cons_append, List.nil_append]
        rw [matchExp_cons, if_pos he]
        simp [hd, htake, hdrop, List.span_eq_take_drop]

/-- A mantissa-grammar string starts with a digit or a dot, never a sign. -/
theorem mantissaLit_head (m : List Char) (hm : mantissaLit m) :
    ∃ c r, m = c :: r ∧ ¬(c = '+' ∨ c = '-') := by
  rcases hm with ⟨ds, fs, hds, hdig, hfdig, hm2 | hm2⟩ | ⟨fs, hfs, hfdig, hm2⟩
  · cases ds with
    | nil => exact absurd rfl hds
    | cons d ds' => exact ⟨d, ds', by rw [hm2], isDig_not_sign (hdig d (by simp))⟩
  · cases ds with
    | nil => exact absurd rfl hds
    | cons d ds' =>
        exact ⟨d, ds' ++ '.' :: fs, by rw [hm2]; rfl,
          isDig_not_sign (hdig d (by simp))⟩
  · exact ⟨'.', fs, hm2, by decide⟩

/-- Every string of the full `_FLOAT_RE` capture-group grammar followed by a
newline is matched exactly: the greedy group is the whole grammar string. -/
theorem matchFloatAt_lit (f rest : List Char) (hf : floatLit f) :
    matchFloatAt (f ++ '\n' :: rest) = some f := by
  obtain ⟨sgn, m, x, hsg, hm, hx, rfl⟩ := hf
  have hexp : matchExp (x ++ '\n' :: rest) = (x, '\n' :: rest) := matchExp_lit x rest hx
  have hxhead : ∃ cx u, x ++ '\n' :: rest = cx :: u ∧ isDig cx = false ∧ cx ≠ '.' := by
    rcases hx with rfl | ⟨e, sg2, ds, he, hsg2, hds, hdig, rfl⟩
    · exact ⟨'\n', rest, rfl, by decide, by decide⟩
    · rcases he with rfl | rfl
      · exact ⟨'e', (sg2 ++ ds) ++ '\n' :: rest, by simp, by decide, by decide⟩
      · exact ⟨'E', (sg2 ++ ds) ++ '\n' :: rest, by simp, by decide, by decide⟩
  obtain ⟨c0, m', hmc, hc0⟩ := mantissaLit_head m hm
  subst hmc
  obtain ⟨cx, u, hxu, hcx1, hcx2⟩ := hxhead
  have hmant : matchMantissa (c0 :: (m' ++ (x ++ '\n' :: rest))) =
      some (c0 :: m', x ++ '\n' :: rest) := by
    have := matchMantissa_lit (c0 :: m') cx u hm hcx1 hcx2
    rw [← hxu] at this
    simpa using this
  rcases hsg with rfl | rfl | rfl
  · simp only [List.nil_append, List.append_assoc, List.cons_append]
    rw [matchFloatAt_cons, if_neg hc0, hmant]
    simp [hexp]
  · simp only [List.cons_append, List.nil_append, List.append_assoc]
    rw [matchFloatAt_cons, if_pos (Or.inl rfl), hmant]
    simp [hexp]
  · simp only [List.cons_append, List.nil_append, List.append_assoc]
    rw [matchFloatAt_cons, if_pos (Or.inr rfl), hmant]
    simp [hexp]

/-- An H line (either phrasing) with any `_FLOAT_RE`-grammar payload matches
at its own position, capturing exactly the payload. -/
theorem matchHAt_line (ph : List Char)
    (hph : ph = "Computed filter worst-case peak gain: H=".data ∨
           ph = "Filter worst-case peak gain: H=".data)
    (f rest : List Char) (hf : floatLit f) :
    matchHAt (ph ++ (f ++ '\n' :: rest)) = some f := by
  rcases hph with rfl | rfl
  · exact (matchHAt_computed _).trans (matchFloatAt_lit f rest hf)
  · exact (matchHAt_bare _).trans (matchFloatAt_lit f rest hf)

/-- The H pattern cannot match at a position where neither phrase literal
occurs. -/
theorem matchHAt_none (u : List Char)
    (h1 : dropLit "Computed filter worst-case peak gain".data u = none)
    (h2 : dropLit "Filter worst-case peak gain".data u = none) :
    matchHAt u = none := by
  simp [matchHAt, h1, h2]

/-- Leftmost scan: when the pattern fails at every position inside `pre`
(including positions whose window spans into `s`), searching `pre ++ s` is
searching `s`. -/
theorem reSearch_skip (m : List Char → Option (List Char)) (pre s : List Char)
    (h : ∀ i, i < pre.length → m ((pre ++ s).drop i) = none) :
    reSearch m (pre ++ s) = reSearch m s := by
  induction pre with
  | nil => rfl
  | cons a pre ih =>
    have h0 : m (a :: (pre ++ s)) = none := by
      have := h 0 (by simp)
      simpa using this
    show reSearch m (a :: (pre ++ s)) = reSearch m s
    rw [show reSearch m (a :: (pre ++ s)) =
          (match m (a :: (pre ++ s)) with
           | some v => some v
           | none => reSearch m (pre ++ s)) from rfl, h0]
    exact ih (fun i hi => by
      have := h (i + 1) (by simpa using Nat.succ_lt_succ hi)
      simpa using this)

/-- C5: for every clean-exit log of the form
`pre ++ <H line, either phrasing, any _FLOAT_RE payload> ++ mid ++ <H line,
the other phrasing, any payload> ++ rest`, where neither phrasing occurs at
any position inside `pre` (so the shown line is the first occurrence in the
concatenated text), H extraction scans to that first occurrence and returns
exactly its payload and numeric value; the alternate phrasing later in the
text never changes the selected value. -/
theorem C5_h_first_occurrence (ph1 ph2 : List Char)
    (hph : (ph1 = "Computed filter worst-case peak gain: H=".data ∧
            ph2 = "Filter worst-case peak gain: H=".data) ∨
           (ph1 = "Filter worst-case peak gain: H=".data ∧
            ph2 = "Computed filter worst-case peak gain: H=".data))
    (pre mid rest num1 num2 : List Char)
    (hn1 : floatLit num1) (_hn2 : floatLit num2)
    (hpre : ∀ i, i < pre.length →
      dropLit "Computed filter worst-case peak gain".data
        ((pre ++ (ph1 ++ (num1 ++ '\n' ::
          (mid ++ (ph2 ++ (num2 ++ '\n' :: rest)))))).drop i) = none ∧
      dropLit "Filter worst-case peak gain".data
        ((pre ++ (ph1 ++ (num1 ++ '\n' ::
          (mid ++ (ph2 ++ (num2 ++ '\n' :: rest)))))).drop i) = none) :
    searchH (pre ++ (ph1 ++ (num1 ++ '\n' ::
        (mid ++ (ph2 ++ (num2 ++ '\n' :: rest)))))) = some num1 ∧
    (searchH (pre ++ (ph1 ++ (num1 ++ '\n' ::
        (mid ++ (ph2 ++ (num2 ++ '\n' :: rest))))))).map floatOfChars =
      some (floatOfChars num1) := by
  have hph1 : ph1 = "Computed filter worst-case peak gain: H=".data ∨
      ph1 = "Filter worst-case peak gain: H=".data := by
    rcases hph with ⟨h, _⟩ | ⟨h, _⟩
    · exact Or.inl h
    · exact Or.inr h
  have hmatch : matchHAt (ph1 ++ (num1 ++ '\n' ::
      (mid ++ (ph2 ++ (num2 ++ '\n' :: rest))))) = some num1 :=
    matchHAt_line ph1 hph1 num1 _ hn1
  have hfound : searchH (pre ++ (ph1 ++ (num1 ++ '\n' ::
      (mid ++ (ph2 ++ (num2 ++ '\n' :: rest)))))) = some num1 :=
    (reSearch_skip matchHAt pre _
      (fun i hi => matchHAt_none _ (hpre i hi).1 (hpre i hi).2)).trans
      (reSearch_head hmatch)
  exact ⟨hfound, by rw [hfound]; rfl⟩

/-- Witness for C5: a log with leading text, the computed phrasing with
payload `1.0` first, then the bare phrasing with payload `-2.5e-3`; the first
occurrence is selected and its value returned. -/
theorem C5_h_first_occurrence_witness :
    searchH ("tool: starting\n".data ++
      ("Computed filter worst-case peak gain: H=".data ++ ("1.0".data ++ '\n' ::
        ("details\n".data ++ ("Filter worst-case peak gain: H=".data ++
          ("-2.5e-3".data ++ '\n' :: [])))))) = some "1.0".data := by
  have f1 : floatLit "1.0".data :=
    ⟨[], "1.0".data, [], Or.inl rfl,
     Or.inl ⟨['1'], ['0'], by decide, by decide, by decide, Or.inr (by decide)⟩,
     Or.inl rfl, by decide⟩
  have f2 : floatLit "-2.5e-3".data :=
    ⟨['-'], "2.5".data, "e-3".data, Or.inr (Or.inr rfl),
     Or.inl ⟨['2'], ['5'], by decide, by decide, by decide, Or.inr (by decide)⟩,
     Or.inr ⟨'e', ['-'], ['3'], Or.inl rfl, Or.inr (Or.inr rfl), by decide,
       by decide, by decide⟩,
     by decide⟩
  exact (C5_h_first_occurrence
    "Computed filter worst-case peak gain: H=".data
    "Filter worst-case peak gain: H=".data (Or.inl ⟨rfl, rfl⟩)
    "tool: starting\n".data "details\n".data [] "1.0".data "-2.5e-3".data
    f1 f2 (by decide)).1

/-- C9 counterexample: a clean-exit log containing the bare text `lsbExt=-3`
(without the `Building an IIR filter faithful to` preamble the pattern
requires) yields no lsbExt match, and the call fails instead of extracting
-3. -/
theorem C9_lsbext_counterexample :
    searchLsbExt "lsbExt=-3".data = none ∧
    run_fixiir_and_parse_metrics { pDefault with fallback_H := some 1 }
      (.completed 0 (some (asciiBytes "lsbExt=-3")) none) =
      .error (.parseLsb "lsbExt=-3\n".data) := by decide

/-- C9 (amended): for every clean-exit log whose first lsbExt-pattern match is
the announcement line `Building an IIR filter faithful to lsbExt=<signed
digits>`, extraction yields the signed integer value of the digits (an
integer, not a string and not an unsigned value); in particular a log with
the `lsbExt=-3` announcement yields the integer -3. -/
theorem C9_signed_lsbext_amended (sgn ds rest : List Char)
    (hs : sgn = [] ∨ sgn = ['+'] ∨ sgn = ['-'])
    (hds : ds ≠ []) (hdig : ∀ c ∈ ds, isDig c = true) :
    searchLsbExt ("Building an IIR filter faithful to lsbExt=".data ++
      (sgn ++ ds ++ '\n' :: rest)) = some (sgn ++ ds) ∧
    intOfChars (sgn ++ ds) =
      (if sgn = ['-'] then -(digitsToNat ds : Int) else (digitsToNat ds : Int)) ∧
    run_fixiir_and_parse_metrics pDefault
      (.completed 0 (some (asciiBytes
        "Filter worst-case peak gain: H=1.0\nBuilding an IIR filter faithful to lsbExt=-3")) none) =
      .ok { H := 1, Heps := none, lsbExt := -3,
            raw_log :=
              "Filter worst-case peak gain: H=1.0\nBuilding an IIR filter faithful to lsbExt=-3\n".data,
            timedOut := false } := by
  refine ⟨reSearch_head ((matchLsbExtAt_line _).trans
      (matchIntAt_signed sgn ds rest hs hds hdig)), ?_, by decide⟩
  rcases hs with rfl | rfl | rfl
  · cases ds with
    | nil => exact absurd rfl hds
    | cons d ds' =>
      have h := isDig_not_sign (hdig d (by simp))
      have hp : d ≠ '+' := fun hh => h (Or.inl hh)
      have hm : d ≠ '-' := fun hh => h (Or.inr hh)
      simp [intOfChars, hp, hm]
  · simp [intOfChars]
  · simp [intOfChars]

/-- Witness for C9 (amended): the announcement line with payload `-42`. -/
theorem C9_signed_lsbext_amended_witness :
    searchLsbExt ("Building an IIR filter faithful to lsbExt=".data ++
      ("-".data ++ "42".data ++ '\n' :: [])) = some ("-".data ++ "42".data) ∧
    intOfChars ("-".data ++ "42".data) =
      (if "-".data = ['-'] then -(digitsToNat "42".data : Int)
       else (digitsToNat "42".data : Int)) :=
  ⟨(C9_signed_lsbext_amended "-".data "42".data [] (by decide) (by decide)
      (by decide)).1,
   (C9_signed_lsbext_amended "-".data "42".data [] (by decide) (by decide)
      (by decide)).2.1⟩

/-- C10: for every byte value `n`, `sortie n` is an 11-entry 0/1 list; for
n = 255 it is all zeros; otherwise, with `j` the smallest bit index whose bit
of `n` is 0, the first 8 entries are one-hot at list index `7 - j` (the same
MSB-first convention as `compteur`) and the last 3 entries are the big-endian
binary digits of `j`. -/
theorem C10_sortie : ∀ n : Nat, n < 256 →
    (sortie n).length = 11 ∧
    (∀ x ∈ sortie n, x = 0 ∨ x = 1) ∧
    (n = 255 → sortie n = List.replicate 11 0) ∧
    (n ≠ 255 → ∃ j : Fin 8,
      (List.range 8).find? (fun i => (n >>> i) % 2 == 0) = some j.val ∧
      (sortie n).take 8 = (List.range 8).map (fun i => if i = 7 - j.val then 1 else 0) ∧
      (sortie n).drop 8 = [j.val / 4 % 2, j.val / 2 % 2, j.val % 2]) := by
  set_option maxRecDepth 4000 in decide

/-- Witness for C10 at n = 203 (binary 11001011: lowest zero bit j = 2). -/
theorem C10_sortie_witness :
    (sortie 203).length = 11 ∧
    (∀ x ∈ sortie 203, x = 0 ∨ x = 1) ∧
    ((203 : Nat) = 255 → sortie 203 = List.replicate 11 0) ∧
    ((203 : Nat) ≠ 255 → ∃ j : Fin 8,
      (List.range 8).find? (fun i => ((203 : Nat) >>> i) % 2 == 0) = some j.val ∧
      (sortie 203).take 8 = (List.range 8).map (fun i => if i = 7 - j.val then 1 else 0) ∧
      (sortie 203).drop 8 = [j.val / 4 % 2, j.val / 2 % 2, j.val % 2]) :=
  C10_sortie 203 (by decide)

end SIR
